import Mathlib

/-!
Shallow embedding of the PBoC Weibo-to-Twitter polling bridge.

The repository is a single-binary Go program (several variants of one
`main.go`): it polls the Weibo home timeline with a `since_id` cursor,
filters statuses by keyword/source heuristics, truncates the message to
140 code points and republishes it on Twitter, advancing the in-memory
cursor to the first (newest) id of each non-empty batch.

We embed:
 - the `Status` data model (`Status` struct in the source);
 - Go `strings.Contains` over code points (`goContains`);
 - the source-aware filter of the main loop (`shouldForward`);
 - the tweet generation / 140-rune truncation (`generateTweet`);
 - the query parameters built by `fetchStatus` (`fetchQuery`);
 - the response-envelope handling of `fetchStatus`, with the external
   `time.Parse` stdlib call abstracted as a parameter (`fetchStatusResult`);
 - the RUNNING loop as a fold over a trace of fetch results
   (`stepCursor`, `runCursor`, `runPublished`, `runFetched`), and the
   INIT phase (`seedCursor`, `initPhase`, `mainRun`).
-/

namespace PBoC

/-- The `user` sub-struct of a Weibo `Status` (`Name`, `ScreenName`). -/
structure StatusUser where
  name : String
  screenName : String
deriving DecidableEq, Repr

/-- A Weibo status as decoded by the bot: nested user, numeric `ID`,
raw `created_at` string, text body, and the parsed creation time
(`CreatedAt`, set by the conversion loop in `fetchStatus`; time values
are abstracted as integers). -/
structure Status where
  user : StatusUser
  id : Int
  rawCreatedAt : String
  text : String
  createdAt : Int := 0
deriving DecidableEq, Repr

/-- Does the rune list `pat` occur at the start of `l`? (helper for
Go `strings.Contains`). -/
def runesStartWith : List Char → List Char → Bool
  | _, [] => true
  | [], _ :: _ => false
  | c :: cs, d :: ds => c == d && runesStartWith cs ds

/-- Does the rune list `sub` occur contiguously inside `l`? -/
def containsRunes (l sub : List Char) : Bool :=
  runesStartWith l sub ||
    match l with
    | [] => false
    | _ :: t => containsRunes t sub

/-- Go `strings.Contains s sub`, over code points.  (For the valid
UTF-8 needles used by the bot, Go's byte-level containment coincides
with code-point containment.) -/
def goContains (s sub : String) : Bool := containsRunes s.data sub.data

/-- The exchange allow-list test of the main loop: the screen name
contains `火币网`, `OKCoin` or `YourBTCC`. -/
def isExchangeHandle (h : String) : Bool :=
  goContains h "火币网" || goContains h "OKCoin" || goContains h "YourBTCC"

/-- The official-notice marker test: the text contains `公告`
(announcement), `尊敬` ("dear") or `用户` ("customer"). -/
def hasAnnouncementMarker (t : String) : Bool :=
  goContains t "公告" || goContains t "尊敬" || goContains t "用户"

/-- The filter applied to each status by the main loop (the two
`continue` branches, read as "forwarded iff not skipped"): an
exchange-handle status is forwarded iff it carries an announcement
marker; any other status is forwarded iff its text contains the
keyword `比特币` (bitcoin). -/
def shouldForward (s : Status) : Bool :=
  cond (isExchangeHandle s.user.screenName)
    (hasAnnouncementMarker s.text)
    (goContains s.text "比特币")

/-- Tweet generation: `fmt.Sprintf("%v: %v", name, text)` converted to
runes, truncated to 140 runes with the last 4 replaced by the marker
`" ..."` when the payload exceeds 140 runes. -/
def generateTweet (name text : String) : List Char :=
  if 140 < (name ++ ": " ++ text).data.length then
    ((name ++ ": " ++ text).data.take (140 - 4)) ++ (" ...").data
  else
    (name ++ ": " ++ text).data

/-- The `url.Values` built by `fetchStatus sinceID`, listed in the
alphabetical key order produced by `Encode()`.  All values except the
access token are digit strings, which percent-encode to themselves;
`fmt.Sprint` of an `int64` is its decimal form, matching `toString`. -/
def fetchQuery (accessToken : String) (sinceID : Int) : List (String × String) :=
  [("access_token", accessToken),
   ("base_app", "0"),
   ("count", "100"),
   ("feature", "0"),
   ("max_id", "0"),
   ("page", "1"),
   ("since_id", toString sinceID),
   ("trim_user", "0")]

/-- The decoded JSON envelope of the timeline response:
`{ statuses: [...], error?: string }` (a missing error field decodes
to the empty string). -/
structure Timeline where
  statuses : List Status
  error : String
deriving DecidableEq, Repr

/-- The `created_at` conversion loop of `fetchStatus`: parse each
status's raw timestamp with the external parser `pt` (Go stdlib
`time.Parse`, abstracted), failing the whole batch on the first
failure; on success each status's `createdAt` is set. -/
def convertTimes (pt : String → Option Int) : List Status → Except String (List Status)
  | [] => .ok []
  | s :: rest =>
    match pt s.rawCreatedAt with
    | none => .error "failed to convert time"
    | some tm =>
      match convertTimes pt rest with
      | .error e => .error e
      | .ok rest2 => .ok ({ s with createdAt := tm } :: rest2)

/-- `fetchStatus` after a successful HTTP GET and JSON decode (the
variant whose envelope carries the application-level `error` field):
a non-empty error field is surfaced as an error before the timestamp
conversion; otherwise the converted statuses are returned. -/
def fetchStatusResult (pt : String → Option Int) (t : Timeline) : Except String (List Status) :=
  if t.error ≠ "" then .error ("failed to fetch status: " ++ t.error)
  else convertTimes pt t.statuses

/-- The outcome of one fetch as seen by the caller: an error (transport
failure, decode failure, application error or timestamp-parse failure)
or a list of statuses in the order delivered. -/
abbrev FetchRes := Except String (List Status)

/-- The statuses the loop body iterates over in a cycle: `fetchStatus`
returns `nil` together with every error, and `statuses` is reassigned
from its result, so an error cycle iterates over nothing. -/
def cycleStatuses : FetchRes → List Status
  | .error _ => []
  | .ok l => l

/-- `statuses[0].ID` when the list is non-empty, `dflt` otherwise
(the guarded `if len(statuses) > 0` assignment). -/
def headID (l : List Status) (dflt : Int) : Int :=
  match l with
  | [] => dflt
  | s :: _ => s.id

/-- Cursor after one cycle: `start = statuses[0].ID` when the batch is
non-empty, unchanged otherwise. -/
def stepCursor (c : Int) (r : FetchRes) : Int := headID (cycleStatuses r) c

/-- The statuses the loop body tweets in one cycle: those of the batch
that pass the filter, in received order. -/
def publishedInCycle (r : FetchRes) : List Status :=
  (cycleStatuses r).filter shouldForward

/-- Cursor after a sequence of RUNNING cycles with fetch results `rs`. -/
def runCursor (c : Int) : List FetchRes → Int
  | [] => c
  | r :: rs => runCursor (stepCursor c r) rs

/-- All statuses published over a sequence of RUNNING cycles, in the
order the loop sends them. -/
def runPublished (c : Int) : List FetchRes → List Status
  | [] => []
  | r :: rs => publishedInCycle r ++ runPublished (stepCursor c r) rs

/-- All statuses delivered by fetches over a sequence of RUNNING
cycles. -/
def runFetched (c : Int) : List FetchRes → List Status
  | [] => []
  | r :: rs => cycleStatuses r ++ runFetched (stepCursor c r) rs

/-- The cursor value before each cycle and after the last one. -/
def cursorHistory (c : Int) : List FetchRes → List Int
  | [] => [c]
  | r :: rs => c :: cursorHistory (stepCursor c r) rs

/-- The ids published over a sequence of RUNNING cycles. -/
def pubIds (c : Int) (rs : List FetchRes) : List Int :=
  (runPublished c rs).map (fun s => s.id)

/-- The source honours `since_id` along the trace: every successful
fetch returns only items with id strictly greater than the cursor it
was called with. -/
def honestTrace (c : Int) : List FetchRes → Prop
  | [] => True
  | r :: rs => (∀ s ∈ cycleStatuses r, c < s.id) ∧ honestTrace (stepCursor c r) rs

/-- Every batch along the trace is in the source's native newest-first
order: strictly descending by id. -/
def newestFirstTrace : List FetchRes → Prop
  | [] => True
  | r :: rs => (cycleStatuses r).Pairwise (fun a b => b.id < a.id) ∧ newestFirstTrace rs

instance decHonestTrace : (c : Int) → (rs : List FetchRes) → Decidable (honestTrace c rs)
  | _, [] => isTrue trivial
  | c, r :: rs =>
    have : Decidable (honestTrace (stepCursor c r) rs) := decHonestTrace _ rs
    inferInstanceAs (Decidable (_ ∧ _))

instance decNewestFirstTrace : (rs : List FetchRes) → Decidable (newestFirstTrace rs)
  | [] => isTrue trivial
  | _ :: rs =>
    have : Decidable (newestFirstTrace rs) := decNewestFirstTrace rs
    inferInstanceAs (Decidable (_ ∧ _))

/-- Cursor seeding in INIT: `var start int64` is zero, set to
`statuses[0].ID` when the seed fetch returned a non-empty batch. -/
def seedCursor (seed : FetchRes) : Int := headID (cycleStatuses seed) 0

/-- Outcome of INIT: config-load and credential-verification failures
are fatal (`log.Fatal`); a seed-fetch failure is only logged and the
loop is entered with the cursor as seeded. -/
inductive InitOutcome where
  | fatal (msg : String)
  | running (start : Int)
deriving DecidableEq, Repr

/-- The INIT phase of `main`. -/
def initPhase (configOk credentialsOk : Bool) (seed : FetchRes) : InitOutcome :=
  match configOk, credentialsOk with
  | false, _ => .fatal "Unable to load config"
  | true, false => .fatal "Failed to verify Twitter credentials"
  | true, true => .running (seedCursor seed)

/-- What a whole run of `main` past INIT produces, as a function of the
seed-fetch result and the RUNNING-cycle fetch results. -/
structure RunOutcome where
  initialCursor : Int
  initLog : String
  finalCursor : Int
  published : List Status
deriving Repr

/-- `main` after successful config load and credential verification:
seed the cursor from the first fetch (logging the initial id), then
run the RUNNING cycles. -/
def mainRun (seed : FetchRes) (cycles : List FetchRes) : RunOutcome :=
  { initialCursor := seedCursor seed
    initLog := "Initial ID set: " ++ toString (seedCursor seed)
    finalCursor := runCursor (seedCursor seed) cycles
    published := runPublished (seedCursor seed) cycles }

/-! Concrete fixtures used by counterexamples and witnesses. -/

/-- A status from a news-source handle (not on the exchange allow-list)
with the given id and text. -/
def newsStatus (i : Int) (t : String) : Status :=
  { user := { name := "财经媒体", screenName := "news-outlet" },
    id := i, rawCreatedAt := "", text := t }

/-- An exchange-handle status with no announcement marker. -/
def okcoinPlain : Status :=
  { user := { name := "OKCoin", screenName := "OKCoin" },
    id := 11, rawCreatedAt := "", text := "今日行情汇总" }

/-- An exchange-handle status carrying the `公告` marker. -/
def okcoinNotice : Status :=
  { user := { name := "OKCoin", screenName := "OKCoin" },
    id := 12, rawCreatedAt := "", text := "公告：系统升级维护" }

/-- A news-handle status containing the keyword `比特币`. -/
def newsWithKeyword : Status := newsStatus 13 "比特币价格创新高"

/-- A news-handle status without the keyword. -/
def newsWithout : Status := newsStatus 14 "股市今日收盘"

/-- A trace in which every item is newer than the cursor it was fetched
with, but the first batch is not newest-first: the cursor advances only
to the first id 103, so id 105 is delivered and published twice. -/
def dupTrace : List FetchRes :=
  [.ok [newsStatus 103 "比特币新闻", newsStatus 105 "比特币新闻"],
   .ok [newsStatus 105 "比特币新闻"]]

/-- An honest, newest-first trace with an interleaved failed fetch. -/
def monoTrace : List FetchRes :=
  [.ok [newsStatus 2 "比特币新闻", newsStatus 1 "比特币新闻"],
   .error "timeout",
   .ok [newsStatus 5 "比特币新闻"]]

/-- The spec's example batch, newest-first with ids 105, 104, 103. -/
def c2Batch : List Status :=
  [newsStatus 105 "比特币新闻", newsStatus 104 "比特币新闻", newsStatus 103 "比特币新闻"]

/-- A newest-first batch of two filter-passing items. -/
def c6Batch : List Status :=
  [newsStatus 105 "比特币新闻", newsStatus 104 "比特币新闻"]

/-- A seed batch with head id 50. -/
def seedBatch : List Status :=
  [newsStatus 50 "比特币新闻", newsStatus 49 "比特币新闻"]

/-- A 150-code-point text used to exercise truncation. -/
def longText : String := String.mk (List.replicate 150 'x')

/-! Helper lemmas about the RUNNING loop. -/

theorem stepCursor_ge {c : Int} {r : FetchRes}
    (hf : ∀ s ∈ cycleStatuses r, c < s.id) : c ≤ stepCursor c r := by
  rcases hcs : cycleStatuses r with _ | ⟨s, t⟩
  · simp [stepCursor, headID, hcs]
  · have hlt := hf s (by rw [hcs]; exact List.mem_cons_self s t)
    simp only [stepCursor, headID, hcs]
    exact le_of_lt hlt

theorem mem_batch_le_stepCursor {c : Int} {r : FetchRes}
    (hp : (cycleStatuses r).Pairwise (fun a b => b.id < a.id)) :
    ∀ s ∈ cycleStatuses r, s.id ≤ stepCursor c r := by
  intro s hs
  rcases hcs : cycleStatuses r with _ | ⟨b, t⟩
  · rw [hcs] at hs; cases hs
  · rw [hcs] at hs hp
    simp only [stepCursor, headID, hcs]
    rcases List.mem_cons.mp hs with rfl | hmem
    · exact le_refl s.id
    · exact le_of_lt ((List.pairwise_cons.mp hp).1 s hmem)

theorem mem_runPublished_mem_runFetched {c : Int} {rs : List FetchRes} {s : Status}
    (h : s ∈ runPublished c rs) : s ∈ runFetched c rs := by
  induction rs generalizing c with
  | nil => simp [runPublished] at h
  | cons r rs ih =>
    simp only [runPublished, runFetched, publishedInCycle, List.mem_append] at h ⊢
    rcases h with h | h
    · exact Or.inl (List.mem_of_mem_filter h)
    · exact Or.inr (ih h)

theorem mem_runFetched_gt {c : Int} {rs : List FetchRes} (h : honestTrace c rs) :
    ∀ s ∈ runFetched c rs, c < s.id := by
  induction rs generalizing c with
  | nil => intro s hs; simp [runFetched] at hs
  | cons r rs ih =>
    intro s hs
    obtain ⟨h1, h2⟩ := h
    simp only [runFetched, List.mem_append] at hs
    rcases hs with hs | hs
    · exact h1 s hs
    · exact lt_of_le_of_lt (stepCursor_ge h1) (ih h2 s hs)

theorem mem_cursorHistory_ge {c : Int} {rs : List FetchRes} (h : honestTrace c rs) :
    ∀ x ∈ cursorHistory c rs, c ≤ x := by
  induction rs generalizing c with
  | nil =>
    intro x hx
    simp only [cursorHistory, List.mem_singleton] at hx
    omega
  | cons r rs ih =>
    intro x hx
    obtain ⟨h1, h2⟩ := h
    simp only [cursorHistory, List.mem_cons] at hx
    rcases hx with rfl | hx
    · exact le_refl x
    · exact le_trans (stepCursor_ge h1) (ih h2 x hx)

theorem cursorHistory_pairwise_le {c : Int} {rs : List FetchRes} (h : honestTrace c rs) :
    (cursorHistory c rs).Pairwise (fun a b => a ≤ b) := by
  induction rs generalizing c with
  | nil => simp [cursorHistory]
  | cons r rs ih =>
    obtain ⟨h1, h2⟩ := h
    simp only [cursorHistory]
    exact List.pairwise_cons.mpr
      ⟨fun x hx => le_trans (stepCursor_ge h1) (mem_cursorHistory_ge h2 x hx), ih h2⟩

theorem filter_ids_nodup {l : List Status}
    (hp : l.Pairwise (fun a b => b.id < a.id)) :
    ((l.filter shouldForward).map (fun s => s.id)).Nodup := by
  have h1 : (l.filter shouldForward).Pairwise (fun a b => b.id < a.id) :=
    hp.sublist (List.filter_sublist l)
  exact List.pairwise_map.mpr (h1.imp fun hab => ne_of_gt hab)

theorem pubIds_nodup {c : Int} {rs : List FetchRes}
    (h1 : honestTrace c rs) (h2 : newestFirstTrace rs) : (pubIds c rs).Nodup := by
  induction rs generalizing c with
  | nil => simp [pubIds, runPublished]
  | cons r rs ih =>
    obtain ⟨h1a, h1b⟩ := h1
    obtain ⟨h2a, h2b⟩ := h2
    have hcons : pubIds c (r :: rs) =
        (publishedInCycle r).map (fun s => s.id) ++ pubIds (stepCursor c r) rs := by
      simp [pubIds, runPublished]
    rw [hcons, List.nodup_append]
    refine ⟨filter_ids_nodup h2a, ih h1b h2b, ?_⟩
    intro x hx1 hx2
    obtain ⟨s, hs, rfl⟩ := List.mem_map.mp hx1
    obtain ⟨t, ht, hts⟩ := List.mem_map.mp hx2
    have hle : s.id ≤ stepCursor c r :=
      mem_batch_le_stepCursor h2a s (List.mem_of_mem_filter hs)
    have hgt : stepCursor c r < t.id :=
      mem_runFetched_gt h1b t (mem_runPublished_mem_runFetched ht)
    omega

/-! Claim theorems. -/

/-- Claim C1, as stated, is false: with only the precondition that every
successful fetch returns items strictly newer than the cursor it was
called with, an id can be published twice, because the cursor advances
to the FIRST id of the batch, which need not be its maximum.  In
`dupTrace` the first fetch (cursor 0) returns ids [103, 105], the cursor
advances to 103, the second fetch (cursor 103) honestly returns id 105
again, and id 105 is published twice. -/
theorem claim1_counterexample :
    honestTrace 0 dupTrace ∧ ¬ (pubIds 0 dupTrace).Nodup := by
  constructor
  · decide
  · decide

/-- Claim C1 (amended): over every sequence of RUNNING cycles in which
each successful fetch returns only items strictly newer than the cursor
it was called with, the cursor never decreases; if in addition every
batch is in newest-first order (strictly descending ids), no item id is
published more than once within the process lifetime.  Monotonicity
holds under the honest-fetch precondition alone; the newest-first
precondition is hypothesized only for the at-most-once conjunct. -/
theorem cursor_monotone_and_at_most_once (c : Int) (rs : List FetchRes)
    (h1 : honestTrace c rs) :
    (cursorHistory c rs).Pairwise (fun a b => a ≤ b) ∧
    (newestFirstTrace rs → (pubIds c rs).Nodup) :=
  ⟨cursorHistory_pairwise_le h1, fun h2 => pubIds_nodup h1 h2⟩

/-- Witness for C1 (amended) on the concrete trace `monoTrace`,
discharging both the honest-fetch and the newest-first hypotheses. -/
theorem cursor_monotone_and_at_most_once_witness :
    honestTrace 0 monoTrace ∧ newestFirstTrace monoTrace ∧
      ((cursorHistory 0 monoTrace).Pairwise (fun a b => a ≤ b) ∧
        (pubIds 0 monoTrace).Nodup) :=
  ⟨by decide, by decide,
    ⟨(cursor_monotone_and_at_most_once 0 monoTrace (by decide)).1,
     (cursor_monotone_and_at_most_once 0 monoTrace (by decide)).2 (by decide)⟩⟩

/-- Claim C2: a successful non-empty fetch sets the cursor to the first
item's id; an empty (or failed) cycle leaves it unchanged; with prior
cursor 100 and the newest-first batch of ids [105, 104, 103] the new
cursor is 105; and afterwards, as long as fetches return only items
strictly newer than the current cursor, no item with id at most 100 is
ever delivered again. -/
theorem cursor_advance_rule :
    (∀ (c : Int) (s : Status) (rest : List Status),
      stepCursor c (.ok (s :: rest)) = s.id) ∧
    (∀ (c : Int) (r : FetchRes), cycleStatuses r = [] → stepCursor c r = c) ∧
    stepCursor 100 (.ok c2Batch) = 105 ∧
    (∀ rs : List FetchRes, honestTrace 105 rs →
      ∀ t ∈ runFetched 105 rs, 100 < t.id) := by
  refine ⟨fun c s rest => rfl, ?_, rfl, ?_⟩
  · intro c r h
    simp [stepCursor, headID, h]
  · intro rs h t ht
    have := mem_runFetched_gt h t ht
    omega

/-- Witness for C2: the empty-cycle conjunct at a failed fetch, and the
no-refetch conjunct on a concrete honest continuation. -/
theorem cursor_advance_rule_witness :
    stepCursor 7 (.error "boom") = 7 ∧
    (∀ t ∈ runFetched 105 [.ok [newsStatus 110 "比特币新闻"]], 100 < t.id) :=
  ⟨cursor_advance_rule.2.1 7 (.error "boom") rfl,
   cursor_advance_rule.2.2.2 [.ok [newsStatus 110 "比特币新闻"]] (by decide)⟩

/-- Claim C3: the payload is the author name, a separator and the text;
when it exceeds 140 code points the generated tweet has exactly 140 code
points and ends with the marker " ..."; otherwise it is unchanged. -/
theorem truncation_law (name text : String) :
    (140 < (name ++ ": " ++ text).data.length →
      (generateTweet name text).length = 140 ∧
        (" ...").data <:+ generateTweet name text) ∧
    ((name ++ ": " ++ text).data.length ≤ 140 →
      generateTweet name text = (name ++ ": " ++ text).data) := by
  constructor
  · intro h
    unfold generateTweet
    rw [if_pos h]
    refine ⟨?_, List.suffix_append _ _⟩
    rw [List.length_append, List.length_take]
    have h4 : (" ...").data.length = 4 := by decide
    rw [h4]
    omega
  · intro h
    unfold generateTweet
    rw [if_neg (by omega)]

set_option maxRecDepth 4000 in
/-- Witness for C3: a 153-code-point payload truncates to 140 ending in
" ...", and a short payload is unchanged. -/
theorem truncation_law_witness :
    140 < ("甲" ++ ": " ++ longText).data.length ∧
    (generateTweet "甲" longText).length = 140 ∧
    (" ...").data <:+ generateTweet "甲" longText ∧
    generateTweet "乙" "比特币" = ("乙" ++ ": " ++ "比特币").data := by
  have h : 140 < ("甲" ++ ": " ++ longText).data.length := by decide
  exact ⟨h, ((truncation_law "甲" longText).1 h).1,
    ((truncation_law "甲" longText).1 h).2,
    (truncation_law "乙" "比特币").2 (by decide)⟩

/-- Claim C4: an exchange-handle status is forwarded iff its text has an
announcement marker, any other status iff its text has the keyword
`比特币`; in particular handle "OKCoin" without a marker is rejected,
"OKCoin" with `公告` is accepted, "news-outlet" with the keyword is
accepted and without it is rejected. -/
theorem filter_policy (s : Status) :
    (isExchangeHandle s.user.screenName = true →
      (shouldForward s = true ↔ hasAnnouncementMarker s.text = true)) ∧
    (isExchangeHandle s.user.screenName = false →
      (shouldForward s = true ↔ goContains s.text "比特币" = true)) ∧
    shouldForward okcoinPlain = false ∧
    shouldForward okcoinNotice = true ∧
    shouldForward newsWithKeyword = true ∧
    shouldForward newsWithout = false := by
  refine ⟨?_, ?_, by decide, by decide, by decide, by decide⟩
  · intro h
    simp [shouldForward, h]
  · intro h
    simp [shouldForward, h]

/-- Witness for C4 at the concrete statuses `okcoinNotice` and
`newsWithKeyword`. -/
theorem filter_policy_witness :
    (shouldForward okcoinNotice = true ↔
      hasAnnouncementMarker okcoinNotice.text = true) ∧
    (shouldForward newsWithKeyword = true ↔
      goContains newsWithKeyword.text "比特币" = true) :=
  ⟨(filter_policy okcoinNotice).1 (by decide),
   (filter_policy newsWithKeyword).2.1 (by decide)⟩

/-- Claim C5: a cycle whose fetch returns an error (any of the error
paths of `fetchStatus`) iterates over zero statuses, publishes nothing,
and leaves the cursor unchanged; within a longer run it behaves exactly
like a cycle that returned zero items. -/
theorem fetch_error_cycle_atomic (c : Int) (e : String) (rs : List FetchRes) :
    cycleStatuses (.error e) = [] ∧
    publishedInCycle (.error e) = [] ∧
    stepCursor c (.error e) = c ∧
    runPublished c (.error e :: rs) = runPublished c rs ∧
    runCursor c (.error e :: rs) = runCursor c rs :=
  ⟨rfl, rfl, rfl, rfl, rfl⟩

/-- Claim C6, as stated, is false: the loop publishes accepted items in
received order, and the source order is newest-first, so in a batch of
ids [105, 104] (both accepted) the item with the larger id is published
first, not the one with the smaller id. -/
theorem publication_order_counterexample :
    publishedInCycle (.ok c6Batch) = c6Batch ∧
    ¬ (publishedInCycle (.ok c6Batch)).Pairwise (fun a b => a.id < b.id) := by
  constructor
  · decide
  · decide

/-- Claim C6 (amended): accepted items are published in received order
(the filter preserves the batch order), so for a newest-first batch the
published sequence is strictly descending by id — the item with the
LARGER id is published first. -/
theorem publication_order (l : List Status)
    (h : l.Pairwise (fun a b => b.id < a.id)) :
    publishedInCycle (.ok l) = l.filter shouldForward ∧
    (publishedInCycle (.ok l)).Pairwise (fun a b => b.id < a.id) :=
  ⟨rfl, h.sublist (List.filter_sublist l)⟩

/-- Witness for C6 (amended) on the concrete batch `c6Batch`. -/
theorem publication_order_witness :
    publishedInCycle (.ok c6Batch) = c6Batch.filter shouldForward ∧
    (publishedInCycle (.ok c6Batch)).Pairwise (fun a b => b.id < a.id) :=
  publication_order c6Batch (by decide)

/-- Claim C7: a well-formed response whose envelope carries a non-empty
application-level error field makes `fetchStatus` return an error (the
check precedes timestamp conversion, so this holds for every external
time parser), never a status list — in particular never an empty one. -/
theorem app_error_surfaced (pt : String → Option Int) (t : Timeline)
    (h : t.error ≠ "") :
    fetchStatusResult pt t = .error ("failed to fetch status: " ++ t.error) ∧
    ∀ l : List Status, fetchStatusResult pt t ≠ .ok l := by
  have h1 : fetchStatusResult pt t = .error ("failed to fetch status: " ++ t.error) := by
    unfold fetchStatusResult
    rw [if_pos h]
  refine ⟨h1, fun l hl => ?_⟩
  rw [h1] at hl
  exact Except.noConfusion hl

/-- Witness for C7 at a concrete envelope with error "token expired". -/
theorem app_error_surfaced_witness :
    fetchStatusResult (fun _ => none) { statuses := [], error := "token expired" } =
      .error ("failed to fetch status: " ++ "token expired") ∧
    ∀ l : List Status,
      fetchStatusResult (fun _ => none) { statuses := [], error := "token expired" } ≠ .ok l :=
  app_error_surfaced (fun _ => none) { statuses := [], error := "token expired" } (by decide)

/-- Claim C8: everything `main` publishes comes from a RUNNING-cycle
fetch — the seed batch is never passed to the filter or published; the
seed fetch only sets the initial cursor, to the head id of a non-empty
seed batch and to 0 otherwise, and the initial cursor value is the one
logged. -/
theorem seed_not_forwarded (seed : FetchRes) (cycles : List FetchRes) :
    (∀ s ∈ (mainRun seed cycles).published,
      s ∈ runFetched (seedCursor seed) cycles) ∧
    (∀ (s : Status) (rest : List Status), cycleStatuses seed = s :: rest →
      (mainRun seed cycles).initialCursor = s.id) ∧
    (cycleStatuses seed = [] → (mainRun seed cycles).initialCursor = 0) ∧
    (mainRun seed cycles).initLog =
      "Initial ID set: " ++ toString ((mainRun seed cycles).initialCursor) := by
  refine ⟨?_, ?_, ?_, rfl⟩
  · intro s hs
    exact mem_runPublished_mem_runFetched hs
  · intro s rest h
    simp [mainRun, seedCursor, headID, h]
  · intro h
    simp [mainRun, seedCursor, headID, h]

/-- Witness for C8 at a concrete seed batch and a failed seed fetch. -/
theorem seed_not_forwarded_witness :
    (∀ s ∈ (mainRun (.ok seedBatch) []).published,
      s ∈ runFetched (seedCursor (.ok seedBatch)) []) ∧
    (mainRun (.ok seedBatch) []).initialCursor = 50 ∧
    (mainRun (.error "net down") []).initialCursor = 0 :=
  ⟨(seed_not_forwarded (.ok seedBatch) []).1,
   (seed_not_forwarded (.ok seedBatch) []).2.1
     (newsStatus 50 "比特币新闻") [newsStatus 49 "比特币新闻"] rfl,
   (seed_not_forwarded (.error "net down") []).2.2.1 rfl⟩

/-- Claim C9: for every cursor value `c`, the query built by
`fetchStatus` carries `since_id` equal to the decimal form of `c`,
`count` fixed at 100 and `page` fixed at 1. -/
theorem since_id_encoding (tok : String) (c : Int) :
    (fetchQuery tok c).lookup "since_id" = some (toString c) ∧
    (fetchQuery tok c).lookup "count" = some "100" ∧
    (fetchQuery tok c).lookup "page" = some "1" :=
  ⟨rfl, rfl, rfl⟩

/-- Claim C10: a failed seed fetch is only logged — with config load and
credential verification succeeding, INIT still reaches RUNNING with
cursor 0 (whereas a config or credential failure is fatal); the first
RUNNING cycle then requests `since_id = 0`, every filter-passing item of
its batch is published, and the cursor then seeds from that batch's head
id. -/
theorem seed_failure_not_fatal (e tok : String) (l : List Status) (rs : List FetchRes) :
    initPhase true true (.error e) = .running 0 ∧
    initPhase false true (.error e) = .fatal "Unable to load config" ∧
    initPhase true false (.error e) = .fatal "Failed to verify Twitter credentials" ∧
    (fetchQuery tok 0).lookup "since_id" = some "0" ∧
    runPublished 0 (.ok l :: rs) =
      l.filter shouldForward ++ runPublished (stepCursor 0 (.ok l)) rs ∧
    (∀ (s : Status) (t : List Status), l = s :: t →
      runCursor 0 (.ok l :: rs) = runCursor s.id rs) := by
  refine ⟨rfl, rfl, rfl, rfl, rfl, ?_⟩
  intro s t h
  subst h
  rfl

/-- Witness for C10 at a concrete one-item first batch. -/
theorem seed_failure_not_fatal_witness :
    initPhase true true (.error "net down") = .running 0 ∧
    runCursor 0 [.ok [newsStatus 9 "比特币新闻"]] = runCursor 9 [] :=
  ⟨(seed_failure_not_fatal "net down" "tok" [] []).1,
   (seed_failure_not_fatal "net down" "tok" [newsStatus 9 "比特币新闻"] []).2.2.2.2.2
     (newsStatus 9 "比特币新闻") [] rfl⟩

end PBoC
